import Mathlib

/-!
Shallow embedding of the static site generator in `main.go` (package main).

External effects (filesystem, the `frontmatter` parsing library, the
`goldmark` Markdown renderer, parsed `html/template` templates) are
modelled as fields of an `Env` record: each field records what the
corresponding external call returns on a given input during one build
run.  `time.Time` values are modelled as `Int` instants, with
`Date.After` becoming `>`.  Go zero values become explicit `zero`
definitions.  The output filesystem state produced by a run is the list
of directories created and the list of (path, content) files written,
in write order.

`sort.Slice` (main.go:69-71) is external library code; it is modelled
by its documented contract `SortSliceOK`: the result is a permutation
of the input for which the supplied `less` function reports consecutive
elements as non-ascending.  Go does not guarantee this sort is stable.
Pipeline functions that need a sort take an explicit `sortImpl`
function standing for the fixed deterministic algorithm the library
runs.
-/

/-- PostMetadata from main.go:20-27; `Date : time.Time` is modelled as an
`Int` instant. -/
structure PostMetadata where
  slug : String
  title : String
  description : String
  date : Int
  language : String
  tags : List String
deriving DecidableEq, Repr

/-- Go zero value of PostMetadata (empty strings, zero time, nil slice). -/
def PostMetadata.zero : PostMetadata :=
  { slug := "", title := "", description := "", date := 0, language := "", tags := [] }

/-- PostData from main.go:29-33; `Content : template.HTML` is modelled as a
`String`. -/
structure PostData where
  metadata : PostMetadata
  content : String
  page : String
deriving DecidableEq, Repr

/-- Go zero value of PostData. -/
def PostData.zero : PostData := { metadata := PostMetadata.zero, content := "", page := "" }

/-- IndexData from main.go:164-167. -/
structure IndexData where
  posts : List PostData
  page : String
deriving DecidableEq, Repr

/-- The anonymous struct passed to the about template, main.go:206-212. -/
structure AboutData where
  page : String
  title : String
deriving DecidableEq, Repr

/-- Outcome of `copyFile("static/style.css", "public/style.css")`
(main.go:233-254): opening the source can fail (no destination file is
created), creating the destination can fail (no destination file
exists), or `io.Copy` can fail after `os.Create` already created the
destination, leaving it with whatever bytes were copied so far
(possibly none). -/
inductive CopyResult where
  | ok (content : String)
  | openErr (e : String)
  | createErr (e : String)
  | copyErr (partialContent : String) (e : String)
deriving DecidableEq, Repr

/-- One build run's view of the external world: what each external call
returns.  Template fields hold the result of
`template.Must(template.ParseFiles(...))`'s inner parse: either a parse
error (on which `template.Must` panics) or an execution function from
the data record to the rendered document (or an execution error). -/
structure Env where
  /-- Result of `filepath.Glob("posts/*.md")`, main.go:92. -/
  globFiles : List String
  /-- Contents of a file at a path, or a read error (`os.Open` +
  `io.ReadAll` in `Read`, main.go:217-231). -/
  readFile : String → Except String String
  /-- Result of `frontmatter.Parse` (main.go:131): parsed metadata and the
  remaining body, or a parse error. -/
  parseFM : String → Except String (PostMetadata × String)
  /-- Result of `mdRenderer.Convert` (main.go:115). -/
  mdConvert : String → Except String String
  /-- Outcome of copying the stylesheet, main.go:59. -/
  copyStyle : CopyResult
  /-- Parse of template/post.html + header + footer, main.go:144. -/
  postTpl : Except String (PostData → Except String String)
  /-- Parse of template/index.html + header + footer, main.go:170. -/
  indexTpl : Except String (IndexData → Except String String)
  /-- Parse of template/about.html + header + footer, main.go:193-197. -/
  aboutTpl : Except String (AboutData → Except String String)
  /-- Error of `os.Create` at an output path, `none` on success. -/
  createErr : String → Option String
  /-- Error of `os.RemoveAll("public")`, main.go:44. -/
  removeErr : Option String
  /-- Error of `os.MkdirAll("public", 0755)`, main.go:49. -/
  mkdirPublicErr : Option String
  /-- Error of `os.Mkdir("public/posts", 0755)`, main.go:54. -/
  mkdirPostsErr : Option String

/-- strings.TrimPrefix (returns s unchanged when the prefix is absent),
expressed over the character list of the string. -/
def trimPrefixFn (s pre : String) : String :=
  if pre.data.isPrefixOf s.data then ⟨s.data.drop pre.data.length⟩ else s

/-- strings.TrimSuffix (returns s unchanged when the suffix is absent),
expressed over the character list of the string. -/
def trimSuffixFn (s suf : String) : String :=
  if suf.data.isSuffixOf s.data then ⟨s.data.take (s.data.length - suf.data.length)⟩ else s

/-- Slug derivation from a globbed filename, main.go:98-99. -/
def slugOf (filename : String) : String :=
  trimSuffixFn (trimPrefixFn filename "posts/") ".md"

/-- getpostData (main.go:128-141): splits front-matter via the library,
returning (rest, postData, error) exactly as the Go triple; on a parse
error the other two results are Go zero values. -/
def getpostData (env : Env) (postMarkdown : String) : String × PostData × Option String :=
  match env.parseFM postMarkdown with
  | .error e => ("", PostData.zero, some ("post parse error: " ++ e))
  | .ok (meta, rest) => (rest, { metadata := meta, content := "", page := "" }, none)

/-- The body of the per-file loop of getAllpostData (main.go:97-123):
derive the slug, read the file back via `Read slug` (which opens
"posts/" + slug + ".md"), split front-matter, convert the body, then
overwrite Content and Slug. -/
def loadPost (env : Env) (filename : String) : Except String PostData :=
  let slug := slugOf filename
  match env.readFile ("posts/" ++ slug ++ ".md") with
  | .error e => .error ("post Read error: " ++ e)
  | .ok postMarkdown =>
    match getpostData env postMarkdown with
    | (_, _, some e) => .error e
    | (rest, postData, none) =>
      match env.mdConvert rest with
      | .error e => .error ("Markdown to html convert error: " ++ e)
      | .ok html =>
        .ok { postData with content := html, metadata := { postData.metadata with slug := slug } }

/-- The loop of getAllpostData over the globbed filenames: stops at the
first failing post (Go returns the partial slice together with the
error; `main` discards the slice when the error is non-nil, so only the
error is kept here). -/
def loadPosts (env : Env) : List String → Except String (List PostData)
  | [] => .ok []
  | f :: fs =>
    match loadPost env f with
    | .error e => .error e
    | .ok p =>
      match loadPosts env fs with
      | .error e => .error e
      | .ok ps => .ok (p :: ps)

/-- getAllpostData, main.go:89-126. -/
def getAllpostData (env : Env) : Except String (List PostData) :=
  loadPosts env env.globFiles

/-- Result of one render call site: `template.Must` panicked on a template
parse error, or the site ran, writing some files, possibly ending with a
returned error. -/
inductive RenderResult where
  | panicked (e : String)
  | ran (files : List (String × String)) (err : Option String)
deriving DecidableEq, Repr

/-- The per-post loop of ParsepostsMDToHTML (main.go:146-160): for each
post create "public/posts/" + Slug + ".html" and execute the template
into it.  A create failure writes nothing for that post and returns; an
execute failure leaves the created file (empty, since execution output
is buffered per-write here) and returns. -/
def renderPosts (env : Env) (tpl : PostData → Except String String) :
    List PostData → List (String × String) × Option String
  | [] => ([], none)
  | p :: ps =>
    let path := "public/posts/" ++ p.metadata.slug ++ ".html"
    match env.createErr path with
    | some e => ([], some ("HTML File creation error: " ++ e))
    | none =>
      match tpl p with
      | .error e => ([(path, "")], some ("Tempalate Execute error: " ++ e))
      | .ok out =>
        let rest := renderPosts env tpl ps
        ((path, out) :: rest.1, rest.2)

/-- ParsepostsMDToHTML, main.go:143-162: `template.Must` panics on a
template parse error; otherwise render every post in order. -/
def ParsepostsMDToHTML (env : Env) (postsData : List PostData) : RenderResult :=
  match env.postTpl with
  | .error e => .panicked e
  | .ok tpl =>
    let r := renderPosts env tpl postsData
    .ran r.1 r.2

/-- The IndexData record built at main.go:179-182. -/
def indexDataOf (postsData : List PostData) : IndexData :=
  { posts := postsData, page := "index" }

/-- ParseIndexTemplateToHTML, main.go:169-190. -/
def ParseIndexTemplateToHTML (env : Env) (postsData : List PostData) : RenderResult :=
  match env.indexTpl with
  | .error e => .panicked e
  | .ok tpl =>
    match env.createErr "public/index.html" with
    | some e => .ran [] (some ("HTML File creation error: " ++ e))
    | none =>
      match tpl (indexDataOf postsData) with
      | .error e => .ran [("public/index.html", "")] (some ("Tempalate Execute error: " ++ e))
      | .ok out => .ran [("public/index.html", out)] none

/-- The constant data record built at main.go:206-212. -/
def aboutData : AboutData := { page := "about", title := "About me" }

/-- ParseAboutPage, main.go:192-215: create and execute errors are
returned unwrapped. -/
def ParseAboutPage (env : Env) : RenderResult :=
  match env.aboutTpl with
  | .error e => .panicked e
  | .ok tpl =>
    match env.createErr "public/about.html" with
    | some e => .ran [] (some e)
    | none =>
      match tpl aboutData with
      | .error e => .ran [("public/about.html", "")] (some e)
      | .ok out => .ran [("public/about.html", out)] none

/-- Output filesystem state produced by one run: directories created and
files written (path, bytes), in order.  Content present before the run
(removed by `os.RemoveAll("public")`) is not represented. -/
structure BuildState where
  dirs : List String
  files : List (String × String)
deriving DecidableEq, Repr

/-- How the process ends: normal exit, `log.Fatal` with a message, or a
runtime panic (from `template.Must`). -/
inductive Exit where
  | success
  | fatal (msg : String)
  | panicked (msg : String)
deriving DecidableEq, Repr

/-- main, main.go:35-87: remove and recreate the output directories, copy
the stylesheet, load all posts, sort them with the library sort
(`sortImpl` stands for the fixed algorithm `sort.Slice` runs on the
comparator `Date.After`), then render post pages, the index page and
the about page; any returned error is fatal via `log.Fatal`. -/
def buildRun (sortImpl : List PostData → List PostData) (env : Env) : BuildState × Exit :=
  match env.removeErr with
  | some e => (⟨[], []⟩, .fatal e)
  | none =>
    match env.mkdirPublicErr with
    | some e => (⟨[], []⟩, .fatal e)
    | none =>
      match env.mkdirPostsErr with
      | some e => (⟨["public"], []⟩, .fatal e)
      | none =>
        let dirs := ["public", "public/posts"]
        match env.copyStyle with
        | .openErr e => (⟨dirs, []⟩, .fatal ("Error copying styles: " ++ e))
        | .createErr e => (⟨dirs, []⟩, .fatal ("Error copying styles: " ++ e))
        | .copyErr partialContent e =>
          (⟨dirs, [("public/style.css", partialContent)]⟩, .fatal ("Error copying styles: " ++ e))
        | .ok styleContent =>
          let base := [("public/style.css", styleContent)]
          match getAllpostData env with
          | .error e => (⟨dirs, base⟩, .fatal e)
          | .ok postsData =>
            let sorted := sortImpl postsData
            match ParsepostsMDToHTML env sorted with
            | .panicked e => (⟨dirs, base⟩, .panicked e)
            | .ran postFiles (some e) => (⟨dirs, base ++ postFiles⟩, .fatal e)
            | .ran postFiles none =>
              match ParseIndexTemplateToHTML env sorted with
              | .panicked e => (⟨dirs, base ++ postFiles⟩, .panicked e)
              | .ran idxFiles (some e) => (⟨dirs, base ++ postFiles ++ idxFiles⟩, .fatal e)
              | .ran idxFiles none =>
                match ParseAboutPage env with
                | .panicked e => (⟨dirs, base ++ postFiles ++ idxFiles⟩, .panicked e)
                | .ran aFiles (some e) =>
                  (⟨dirs, base ++ postFiles ++ idxFiles ++ aFiles⟩, .fatal e)
                | .ran aFiles none =>
                  (⟨dirs, base ++ postFiles ++ idxFiles ++ aFiles⟩, .success)

/-- Documented contract of `sort.Slice(postsData, less)` at main.go:69-71
with `less i j = postsData[i].Metadata.Date.After(postsData[j].Metadata.Date)`:
the output is a permutation of the input on which no consecutive pair is
ascending under `less` (Go's `sort.SliceIsSorted`).  Stability is not
part of the contract. -/
def SortSliceOK (l out : List PostData) : Prop :=
  out.Perm l ∧ out.Chain' (fun a b => ¬ b.metadata.date > a.metadata.date)

/-- A sort implementation satisfies the `sort.Slice` contract on every
input. -/
def SortImplOK (sortImpl : List PostData → List PostData) : Prop :=
  ∀ l, SortSliceOK l (sortImpl l)

/-! ## Concrete fixtures used by witnesses -/

/-- Concrete build environment with one post file whose front-matter
declares a slug different from the filename-derived one; every external
call succeeds. -/
def wEnv : Env :=
  { globFiles := ["posts/hello.md"]
    readFile := fun p => if p = "posts/hello.md" then .ok "raw-hello" else .error "no such file"
    parseFM := fun s =>
      if s = "raw-hello" then
        .ok ({ slug := "front-matter-slug", title := "Hello", description := "d",
               date := 7, language := "en", tags := ["t"] }, "# Hi")
      else .error "bad front matter"
    mdConvert := fun s => .ok ("<h1>" ++ s ++ "</h1>")
    copyStyle := .ok "css-bytes"
    postTpl := .ok (fun p => .ok ("post:" ++ p.metadata.slug ++ ":" ++ p.content))
    indexTpl := .ok (fun d => .ok ("index:" ++ String.intercalate "," (d.posts.map (fun p => p.metadata.title))))
    aboutTpl := .ok (fun a => .ok ("about:" ++ a.page ++ ":" ++ a.title))
    createErr := fun _ => none
    removeErr := none
    mkdirPublicErr := none
    mkdirPostsErr := none }

/-- The PostData that loading `posts/hello.md` in `wEnv` produces. -/
def wPost : PostData :=
  { metadata := { slug := "hello", title := "Hello", description := "d",
                  date := 7, language := "en", tags := ["t"] },
    content := "<h1># Hi</h1>", page := "" }

/-- A concrete deterministic sort implementation satisfying the
`sort.Slice` contract, used to instantiate `sortImpl` in witnesses. -/
def wSort : List PostData → List PostData :=
  List.insertionSort (fun a b => b.metadata.date ≤ a.metadata.date)

/-- Pointwise agreement of two environments: two runs that observe the same
glob result, the same file bytes, the same library parse and conversion
results, the same copy outcome and the same template parses — i.e. two
runs over unchanged inputs. -/
def EnvAgree (e1 e2 : Env) : Prop :=
  e1.globFiles = e2.globFiles ∧
  (∀ s, e1.readFile s = e2.readFile s) ∧
  (∀ s, e1.parseFM s = e2.parseFM s) ∧
  (∀ s, e1.mdConvert s = e2.mdConvert s) ∧
  e1.copyStyle = e2.copyStyle ∧
  e1.postTpl = e2.postTpl ∧
  e1.indexTpl = e2.indexTpl ∧
  e1.aboutTpl = e2.aboutTpl ∧
  (∀ s, e1.createErr s = e2.createErr s) ∧
  e1.removeErr = e2.removeErr ∧
  e1.mkdirPublicErr = e2.mkdirPublicErr ∧
  e1.mkdirPostsErr = e2.mkdirPostsErr

/-- Proposition that copying the stylesheet failed, carrying the error
message returned by copyFile. -/
def CopyFailed : CopyResult → String → Prop
  | .ok _, _ => False
  | .openErr e, m => m = e
  | .createErr e, m => m = e
  | .copyErr _ e, m => m = e

/-- What is left at the stylesheet destination for a given copy outcome:
nothing when the source could not be opened or the destination could not
be created, the partially copied bytes when io.Copy failed after
os.Create already created the file. -/
def styleRemnant : CopyResult → List (String × String)
  | .openErr _ => []
  | .createErr _ => []
  | .copyErr p _ => [("public/style.css", p)]
  | .ok c => [("public/style.css", c)]

/-- Variant of `wEnv` where io.Copy on the stylesheet fails after the
destination was created, with zero bytes copied. -/
def wEnvCopyFail : Env := { wEnv with copyStyle := .copyErr "" "disk full" }

/-- Variant of `wEnv` where the post template file fails to parse. -/
def wEnvPostTplFail : Env := { wEnv with postTpl := .error "no post template" }

/-- Variant of `wEnv` where every file read fails. -/
def wEnvReadFail : Env := { wEnv with readFile := fun _ => .error "permission denied" }

/-! ## Helper lemmas -/

/-- Helper for building concrete posts in witnesses. -/
def mkPost (s t : String) (d : Int) : PostData :=
  { metadata := { slug := s, title := t, description := "", date := d, language := "", tags := [] },
    content := "", page := "" }

/-- Any output satisfying the `sort.Slice` contract on an input with
pairwise distinct dates is strictly descending by date. -/
theorem sortSliceOK_pairwise_gt {l out : List PostData} (h : SortSliceOK l out)
    (hd : l.Pairwise (fun a b => a.metadata.date ≠ b.metadata.date)) :
    out.Pairwise (fun a b => a.metadata.date > b.metadata.date) := by
  have hle : out.Pairwise (fun a b : PostData => b.metadata.date ≤ a.metadata.date) := by
    haveI : IsTrans PostData (fun a b : PostData => b.metadata.date ≤ a.metadata.date) :=
      ⟨fun _ _ _ hab hbc => le_trans hbc hab⟩
    rw [← List.chain'_iff_pairwise]
    exact h.2.imp (fun {a b} hab => not_lt.mp hab)
  have hne : out.Pairwise (fun a b : PostData => a.metadata.date ≠ b.metadata.date) :=
    hd.perm h.1.symm (fun {x y} hxy => hxy.symm)
  exact (hle.and hne).imp (fun {a b} hab => lt_of_le_of_ne hab.1 (Ne.symm hab.2))

/-! ## Claims -/

/-- C1: for every list of loaded posts whose publication dates are pairwise
distinct, any output of the orchestrator's sort step (main.go:69-71,
modelled by the `sort.Slice` contract `SortSliceOK`) lists the posts in
strictly descending date order — newest first — and hence so does the
post list inside the index page's data record. -/
theorem C1_sort_strictly_descending (l out : List PostData)
    (hsort : SortSliceOK l out)
    (hdist : l.Pairwise (fun a b => a.metadata.date ≠ b.metadata.date)) :
    out.Pairwise (fun a b => a.metadata.date > b.metadata.date) ∧
      (indexDataOf out).posts.Pairwise (fun a b => a.metadata.date > b.metadata.date) :=
  ⟨sortSliceOK_pairwise_gt hsort hdist, sortSliceOK_pairwise_gt hsort hdist⟩

/-- Witness for C1 at a concrete two-post input. -/
theorem C1_sort_strictly_descending_witness :
    SortSliceOK [mkPost "a" "A" 1, mkPost "b" "B" 3]
      [mkPost "b" "B" 3, mkPost "a" "A" 1] ∧
    List.Pairwise (fun a b => a.metadata.date ≠ b.metadata.date)
      [mkPost "a" "A" 1, mkPost "b" "B" 3] ∧
    List.Pairwise (fun a b => a.metadata.date > b.metadata.date)
      [mkPost "b" "B" 3, mkPost "a" "A" 1] := by
  have hs : SortSliceOK [mkPost "a" "A" 1, mkPost "b" "B" 3]
      [mkPost "b" "B" 3, mkPost "a" "A" 1] :=
    ⟨by decide, List.Chain.cons (by decide) List.Chain.nil⟩
  have hd : List.Pairwise (fun a b => a.metadata.date ≠ b.metadata.date)
      [mkPost "a" "A" 1, mkPost "b" "B" 3] := by decide
  exact ⟨hs, hd, (C1_sort_strictly_descending _ _ hs hd).1⟩

/-- Helper: a successfully loaded post carries the filename-derived slug
(the assignment at main.go:122 overwrites the front-matter value). -/
theorem loadPost_slug {env : Env} {f : String} {p : PostData}
    (h : loadPost env f = .ok p) : p.metadata.slug = slugOf f := by
  simp only [loadPost] at h
  cases hrf : env.readFile ("posts/" ++ slugOf f ++ ".md") with
  | error e => rw [hrf] at h; exact absurd h (by simp)
  | ok pm =>
    rw [hrf] at h
    simp only [getpostData] at h
    cases hp : env.parseFM pm with
    | error e => rw [hp] at h; exact absurd h (by simp)
    | ok mr =>
      obtain ⟨meta, rest⟩ := mr
      rw [hp] at h
      dsimp only at h
      cases hc : env.mdConvert rest with
      | error e => rw [hc] at h; exact absurd h (by simp)
      | ok html =>
        rw [hc] at h
        simp only [Except.ok.injEq] at h
        subst h
        simp

/-- Helper: when the load loop succeeds, the produced slugs are exactly the
filename-derived slugs of the globbed files, in discovery order. -/
theorem loadPosts_slugs (env : Env) :
    ∀ (fs : List String) (ps : List PostData), loadPosts env fs = .ok ps →
      ps.map (fun p => p.metadata.slug) = fs.map slugOf
  | [], ps, h => by
    simp only [loadPosts, Except.ok.injEq] at h
    subst h
    rfl
  | f :: fs, ps, h => by
    simp only [loadPosts] at h
    cases hl : loadPost env f with
    | error e => rw [hl] at h; simp at h
    | ok p =>
      rw [hl] at h
      cases hr : loadPosts env fs with
      | error e => rw [hr] at h; simp at h
      | ok ps' =>
        rw [hr] at h
        simp only [Except.ok.injEq] at h
        subst h
        simp [loadPosts_slugs env fs ps' hr, loadPost_slug hl]

/-- Helper: two outputs of the sort contract on an input with pairwise
distinct dates are equal (the contract is deterministic there). -/
theorem sortSliceOK_unique {l out1 out2 : List PostData}
    (h1 : SortSliceOK l out1) (h2 : SortSliceOK l out2)
    (hd : l.Pairwise (fun a b => a.metadata.date ≠ b.metadata.date)) :
    out1 = out2 := by
  haveI : IsAntisymm PostData (fun a b => a.metadata.date > b.metadata.date) :=
    ⟨fun a b hab hba => (lt_asymm hab hba).elim⟩
  exact List.eq_of_perm_of_sorted (h1.1.trans h2.1.symm)
    (sortSliceOK_pairwise_gt h1 hd) (sortSliceOK_pairwise_gt h2 hd)

/-- C3: for every environment in which the load phase succeeds, the slug
stored in each produced PostRecord is the filename-derived slug of the
corresponding globbed file, whatever slug the front-matter parser put in
the metadata (main.go:122 overwrites it). -/
theorem C3_slug_overridden_by_filename (env : Env) (posts : List PostData)
    (h : getAllpostData env = .ok posts) :
    posts.map (fun p => p.metadata.slug) = env.globFiles.map slugOf :=
  loadPosts_slugs env env.globFiles posts h

/-- Witness for C3: in `wEnv` the front-matter declares slug
"front-matter-slug", yet the record carries "hello". -/
theorem C3_slug_overridden_by_filename_witness :
    getAllpostData wEnv = .ok [wPost] ∧
      [wPost].map (fun p => p.metadata.slug) = wEnv.globFiles.map slugOf :=
  ⟨rfl, C3_slug_overridden_by_filename wEnv [wPost] rfl⟩

/-- C4 counterexample: the `sort.Slice` contract (main.go:69-71) does not
force stability for equal dates — with two posts of the same date, the
swapped order also satisfies the contract, yet the same-date posts do
not keep their discovery order (their date-restricted subsequence
changes). -/
theorem C4_stable_sort_counterexample :
    SortSliceOK [mkPost "a" "A" 5, mkPost "b" "B" 5]
      [mkPost "b" "B" 5, mkPost "a" "A" 5] ∧
    [mkPost "b" "B" 5, mkPost "a" "A" 5].filter (fun p => p.metadata.date == 5) ≠
      [mkPost "a" "A" 5, mkPost "b" "B" 5].filter (fun p => p.metadata.date == 5) :=
  ⟨⟨List.Perm.swap (mkPost "a" "A" 5) (mkPost "b" "B" 5) [],
    List.Chain.cons (by decide) List.Chain.nil⟩, by decide⟩

/-- C4 (amended): the orchestrator's sort is not guaranteed stable — the
`sort.Slice` contract allows equal-date posts to lose their discovery
order.  What does hold: every contract-satisfying output is a
permutation of the input, and on inputs whose dates are pairwise
distinct the contract determines the output uniquely (so only
equal-date ties can reorder). -/
theorem C4_sort_deterministic_on_distinct_dates (l out1 out2 : List PostData)
    (h1 : SortSliceOK l out1) (h2 : SortSliceOK l out2)
    (hd : l.Pairwise (fun a b => a.metadata.date ≠ b.metadata.date)) :
    out1.Perm l ∧ out1 = out2 :=
  ⟨h1.1, sortSliceOK_unique h1 h2 hd⟩

/-- Witness for the amended C4 at a concrete two-post input. -/
theorem C4_sort_deterministic_on_distinct_dates_witness :
    SortSliceOK [mkPost "a" "A" 1, mkPost "b" "B" 3]
      [mkPost "b" "B" 3, mkPost "a" "A" 1] ∧
    List.Pairwise (fun a b => a.metadata.date ≠ b.metadata.date)
      [mkPost "a" "A" 1, mkPost "b" "B" 3] ∧
    [mkPost "b" "B" 3, mkPost "a" "A" 1].Perm [mkPost "a" "A" 1, mkPost "b" "B" 3] := by
  have hs : SortSliceOK [mkPost "a" "A" 1, mkPost "b" "B" 3]
      [mkPost "b" "B" 3, mkPost "a" "A" 1] :=
    ⟨List.Perm.swap (mkPost "a" "A" 1) (mkPost "b" "B" 3) [],
      List.Chain.cons (by decide) List.Chain.nil⟩
  have hd : List.Pairwise (fun a b => a.metadata.date ≠ b.metadata.date)
      [mkPost "a" "A" 1, mkPost "b" "B" 3] := by decide
  exact ⟨hs, hd,
    (C4_sort_deterministic_on_distinct_dates _ _ _ hs hs hd).1⟩

/-- C8: the front-matter splitter (getpostData, main.go:128-141) returns,
when the parsing library succeeds, the parsed metadata record together
with the remaining body text unchanged and no error; and it returns a
parse error — with Go zero-valued rest and record — exactly when the
library reports the metadata block malformed or its syntax invalid. -/
theorem C8_front_matter_splitter_contract (env : Env) (s : String) :
    (∀ m rest, env.parseFM s = .ok (m, rest) →
        getpostData env s = (rest, { metadata := m, content := "", page := "" }, none)) ∧
    (∀ e, env.parseFM s = .error e →
        getpostData env s = ("", PostData.zero, some ("post parse error: " ++ e))) ∧
    ((getpostData env s).2.2 ≠ none ↔ ∃ e, env.parseFM s = .error e) := by
  refine ⟨?_, ?_, ?_⟩
  · intro m rest h
    simp [getpostData, h]
  · intro e h
    simp [getpostData, h]
  · cases h : env.parseFM s with
    | error e => simp [getpostData, h]
    | ok mr =>
      obtain ⟨m, rest⟩ := mr
      simp [getpostData, h]

/-- Witness for C8: in `wEnv` the splitter returns the body unchanged and
the parsed metadata. -/
theorem C8_front_matter_splitter_contract_witness :
    wEnv.parseFM "raw-hello" =
      .ok ({ slug := "front-matter-slug", title := "Hello", description := "d",
             date := 7, language := "en", tags := ["t"] }, "# Hi") ∧
    getpostData wEnv "raw-hello" =
      ("# Hi", { metadata := { slug := "front-matter-slug", title := "Hello", description := "d",
                               date := 7, language := "en", tags := ["t"] },
                 content := "", page := "" }, none) :=
  ⟨rfl, (C8_front_matter_splitter_contract wEnv "raw-hello").1
    { slug := "front-matter-slug", title := "Hello", description := "d",
      date := 7, language := "en", tags := ["t"] } "# Hi" rfl⟩

/-- C10: the about page is rendered from the constant data record
`aboutData`, whose page identifier is "about" and title is "About me";
whenever the about template parses and the output file is creatable,
ParseAboutPage (main.go:192-215) writes exactly the template applied to
that fixed record — the function receives no post-derived input at
all. -/
theorem C10_about_page_constant_data (env : Env)
    (tpl : AboutData → Except String String) (out : String)
    (htpl : env.aboutTpl = .ok tpl)
    (hc : env.createErr "public/about.html" = none)
    (hout : tpl aboutData = .ok out) :
    aboutData = { page := "about", title := "About me" } ∧
    ParseAboutPage env = .ran [("public/about.html", out)] none :=
  ⟨rfl, by simp [ParseAboutPage, htpl, hc, hout]⟩

/-- Witness for C10 in the concrete environment `wEnv`. -/
theorem C10_about_page_constant_data_witness :
    ParseAboutPage wEnv = .ran [("public/about.html", "about:about:About me")] none :=
  (C10_about_page_constant_data wEnv
    (fun a => .ok ("about:" ++ a.page ++ ":" ++ a.title))
    "about:about:About me" rfl rfl rfl).2

/-- C5: two build runs over unchanged inputs — environments that agree on
every observation — produce identical output states and identical exit
behaviour, byte for byte.  (The fixed library sort algorithm is the
same function in both runs.) -/
theorem C5_build_idempotent (sortImpl : List PostData → List PostData)
    (e1 e2 : Env) (h : EnvAgree e1 e2) :
    buildRun sortImpl e1 = buildRun sortImpl e2 := by
  obtain ⟨h1, h2, h3, h4, h5, h6, h7, h8, h9, h10, h11, h12⟩ := h
  have he : e1 = e2 := by
    cases e1
    cases e2
    simp only [Env.mk.injEq]
    exact ⟨h1, funext h2, funext h3, funext h4, h5, h6, h7, h8, funext h9, h10, h11, h12⟩
  rw [he]

/-- Witness for C5: the concrete environment agrees with itself and the two
runs coincide. -/
theorem C5_build_idempotent_witness :
    EnvAgree wEnv wEnv ∧ buildRun wSort wEnv = buildRun wSort wEnv := by
  have ha : EnvAgree wEnv wEnv :=
    ⟨rfl, fun _ => rfl, fun _ => rfl, fun _ => rfl, rfl, rfl, rfl, rfl,
      fun _ => rfl, rfl, rfl, rfl⟩
  exact ⟨ha, C5_build_idempotent wSort wEnv wEnv ha⟩

/-- Helper: if any globbed file fails to load, the load loop returns an
error (the loop stops at the first failure, and a failing file is
reached unless an earlier one already failed). -/
theorem loadPosts_error_of_mem (env : Env) (f : String) (e : String) :
    ∀ (fs : List String), f ∈ fs → loadPost env f = .error e →
      ∃ e2, loadPosts env fs = .error e2
  | [], hmem, _ => absurd hmem (List.not_mem_nil f)
  | g :: gs, hmem, hf => by
    cases hl : loadPost env g with
    | error e2 => exact ⟨e2, by simp [loadPosts, hl]⟩
    | ok p =>
      have hfg : f ∈ gs := by
        rcases List.mem_cons.mp hmem with h | h
        · subst h
          rw [hl] at hf
          exact absurd hf (by simp)
        · exact h
      obtain ⟨e2, he2⟩ := loadPosts_error_of_mem env f e gs hfg hf
      exact ⟨e2, by simp [loadPosts, hl, he2]⟩

/-- Helper: when the load phase returns an error, the run ends in
`log.Fatal` (whatever earlier setup steps did) and the only path that
can appear in the output files is the stylesheet destination. -/
theorem buildRun_load_error (sortImpl : List PostData → List PostData)
    (env : Env) (e2 : String) (hga : getAllpostData env = .error e2) :
    (∃ msg, (buildRun sortImpl env).2 = .fatal msg) ∧
    ∀ p c, (p, c) ∈ (buildRun sortImpl env).1.files → p = "public/style.css" := by
  cases hrm : env.removeErr with
  | some m =>
    refine ⟨⟨m, by simp [buildRun, hrm]⟩, ?_⟩
    intro p c hpc
    simp [buildRun, hrm] at hpc
  | none =>
    cases hm1 : env.mkdirPublicErr with
    | some m =>
      refine ⟨⟨m, by simp [buildRun, hrm, hm1]⟩, ?_⟩
      intro p c hpc
      simp [buildRun, hrm, hm1] at hpc
    | none =>
      cases hm2 : env.mkdirPostsErr with
      | some m =>
        refine ⟨⟨m, by simp [buildRun, hrm, hm1, hm2]⟩, ?_⟩
        intro p c hpc
        simp [buildRun, hrm, hm1, hm2] at hpc
      | none =>
        cases hcs : env.copyStyle with
        | openErr e3 =>
          refine ⟨⟨"Error copying styles: " ++ e3, by simp [buildRun, hrm, hm1, hm2, hcs]⟩, ?_⟩
          intro p c hpc
          simp [buildRun, hrm, hm1, hm2, hcs] at hpc
        | createErr e3 =>
          refine ⟨⟨"Error copying styles: " ++ e3, by simp [buildRun, hrm, hm1, hm2, hcs]⟩, ?_⟩
          intro p c hpc
          simp [buildRun, hrm, hm1, hm2, hcs] at hpc
        | copyErr pc e3 =>
          refine ⟨⟨"Error copying styles: " ++ e3, by simp [buildRun, hrm, hm1, hm2, hcs]⟩, ?_⟩
          intro p c hpc
          simp [buildRun, hrm, hm1, hm2, hcs] at hpc
          exact hpc.1
        | ok cc =>
          refine ⟨⟨e2, by simp [buildRun, hrm, hm1, hm2, hcs, hga]⟩, ?_⟩
          intro p c hpc
          simp [buildRun, hrm, hm1, hm2, hcs, hga] at hpc
          exact hpc.1

/-- C6: if any discovered post fails at any of its load sub-steps (read,
front-matter split, Markdown conversion — each surfacing as `loadPost`
returning an error), the entire build aborts via `log.Fatal`: the exit
is a fatal error and no post page, index page or about page is written
(every written file sits at the stylesheet path).  There is no
skip-and-continue or partial-success mode. -/
theorem C6_single_post_failure_aborts
    (sortImpl : List PostData → List PostData) (env : Env) (f e : String)
    (hmem : f ∈ env.globFiles) (hfail : loadPost env f = .error e) :
    (∃ msg, (buildRun sortImpl env).2 = .fatal msg) ∧
    ∀ p c, (p, c) ∈ (buildRun sortImpl env).1.files → p = "public/style.css" := by
  obtain ⟨e2, hga⟩ := loadPosts_error_of_mem env f e env.globFiles hmem hfail
  exact buildRun_load_error sortImpl env e2 hga

/-- Witness for C6: with every read failing, the single post's read error
aborts the build and only the stylesheet was written. -/
theorem C6_single_post_failure_aborts_witness :
    "posts/hello.md" ∈ wEnvReadFail.globFiles ∧
    loadPost wEnvReadFail "posts/hello.md" = .error "post Read error: permission denied" ∧
    (∃ msg, (buildRun wSort wEnvReadFail).2 = .fatal msg) ∧
    ∀ p c, (p, c) ∈ (buildRun wSort wEnvReadFail).1.files → p = "public/style.css" := by
  have hmem : "posts/hello.md" ∈ wEnvReadFail.globFiles := by
    show "posts/hello.md" ∈ ["posts/hello.md"]
    simp
  have hfail : loadPost wEnvReadFail "posts/hello.md" =
      .error "post Read error: permission denied" := rfl
  obtain ⟨h1, h2⟩ :=
    C6_single_post_failure_aborts wSort wEnvReadFail "posts/hello.md" _ hmem hfail
  exact ⟨hmem, hfail, h1, h2⟩

/-- C7 counterexample: when io.Copy fails after os.Create already created
public/style.css (here with zero bytes copied), the build aborts, but
the state left behind is not exactly the empty recreated directories —
the stylesheet file exists. -/
theorem C7_exact_empty_state_counterexample :
    buildRun wSort wEnvCopyFail =
      (⟨["public", "public/posts"], [("public/style.css", "")]⟩,
        .fatal "Error copying styles: disk full") ∧
    (buildRun wSort wEnvCopyFail).1.files ≠ [] :=
  ⟨rfl, by decide⟩

/-- C7 (amended): if copying the static stylesheet fails, the build aborts
before any post is read or rendered, and — the directories having been
created before the copy — the state left behind is exactly the
recreated output directories plus at most a partially written
stylesheet file (present exactly when the failure came after the
destination was created); in particular no post HTML file exists. -/
theorem C7_copy_failure_aborts_before_posts
    (sortImpl : List PostData → List PostData) (env : Env) (e : String)
    (hfail : CopyFailed env.copyStyle e)
    (hrm : env.removeErr = none) (hm1 : env.mkdirPublicErr = none)
    (hm2 : env.mkdirPostsErr = none) :
    buildRun sortImpl env =
      (⟨["public", "public/posts"], styleRemnant env.copyStyle⟩,
        .fatal ("Error copying styles: " ++ e)) ∧
    ∀ p c, (p, c) ∈ styleRemnant env.copyStyle → p = "public/style.css" := by
  cases hcs : env.copyStyle with
  | ok c =>
    rw [hcs] at hfail
    exact hfail.elim
  | openErr e3 =>
    rw [hcs] at hfail
    have he : e = e3 := hfail
    subst he
    refine ⟨by simp [buildRun, hrm, hm1, hm2, hcs, styleRemnant], ?_⟩
    intro p c hpc
    simp [styleRemnant] at hpc
  | createErr e3 =>
    rw [hcs] at hfail
    have he : e = e3 := hfail
    subst he
    refine ⟨by simp [buildRun, hrm, hm1, hm2, hcs, styleRemnant], ?_⟩
    intro p c hpc
    simp [styleRemnant] at hpc
  | copyErr pc e3 =>
    rw [hcs] at hfail
    have he : e = e3 := hfail
    subst he
    refine ⟨by simp [buildRun, hrm, hm1, hm2, hcs, styleRemnant], ?_⟩
    intro p c hpc
    simp [styleRemnant] at hpc
    exact hpc.1

/-- Witness for the amended C7 at the concrete failing-copy environment. -/
theorem C7_copy_failure_aborts_before_posts_witness :
    CopyFailed wEnvCopyFail.copyStyle "disk full" ∧
    buildRun wSort wEnvCopyFail =
      (⟨["public", "public/posts"], styleRemnant wEnvCopyFail.copyStyle⟩,
        .fatal ("Error copying styles: " ++ "disk full")) := by
  have hf : CopyFailed wEnvCopyFail.copyStyle "disk full" := rfl
  exact ⟨hf,
    (C7_copy_failure_aborts_before_posts wSort wEnvCopyFail "disk full" hf rfl rfl rfl).1⟩

/-- C9 counterexample: with the post template failing to parse, the
failure mode is a runtime panic from template.Must, not an error result
propagated to log.Fatal: the exit is `panicked`, and it differs from
every `fatal` exit. -/
theorem C9_template_error_result_counterexample :
    (buildRun wSort wEnvPostTplFail).2 = .panicked "no post template" ∧
    ∀ m, (buildRun wSort wEnvPostTplFail).2 ≠ .fatal m := by
  refine ⟨rfl, ?_⟩
  intro m h
  have h2 : Exit.panicked "no post template" = Exit.fatal m := h
  exact Exit.noConfusion h2

/-- C9 (amended): at each of the three render call sites, a missing or
syntactically invalid template makes `template.Must` panic — the render
operation ends the process with a panic rather than returning an error
result; in the full pipeline a post-template parse failure likewise
terminates the run as a panic. -/
theorem C9_template_load_failure_panics
    (sortImpl : List PostData → List PostData) (env : Env) (e : String) :
    (∀ posts, env.postTpl = .error e → ParsepostsMDToHTML env posts = .panicked e) ∧
    (∀ posts, env.indexTpl = .error e → ParseIndexTemplateToHTML env posts = .panicked e) ∧
    (env.aboutTpl = .error e → ParseAboutPage env = .panicked e) ∧
    (env.removeErr = none → env.mkdirPublicErr = none → env.mkdirPostsErr = none →
      ∀ c posts, env.copyStyle = .ok c → getAllpostData env = .ok posts →
        env.postTpl = .error e →
        buildRun sortImpl env =
          (⟨["public", "public/posts"], [("public/style.css", c)]⟩, .panicked e)) := by
  refine ⟨?_, ?_, ?_, ?_⟩
  · intro posts h
    simp [ParsepostsMDToHTML, h]
  · intro posts h
    simp [ParseIndexTemplateToHTML, h]
  · intro h
    simp [ParseAboutPage, h]
  · intro hrm hm1 hm2 c posts hcs hga htpl
    simp [buildRun, hrm, hm1, hm2, hcs, hga, ParsepostsMDToHTML, htpl]

/-- Witness for the amended C9 at the concrete environment whose post
template fails to parse. -/
theorem C9_template_load_failure_panics_witness :
    wEnvPostTplFail.postTpl = .error "no post template" ∧
    buildRun wSort wEnvPostTplFail =
      (⟨["public", "public/posts"], [("public/style.css", "css-bytes")]⟩,
        .panicked "no post template") := by
  have htpl : wEnvPostTplFail.postTpl = .error "no post template" := rfl
  have hga : getAllpostData wEnvPostTplFail = .ok [wPost] := rfl
  exact ⟨htpl,
    (C9_template_load_failure_panics wSort wEnvPostTplFail "no post template").2.2.2
      rfl rfl rfl "css-bytes" [wPost] rfl hga htpl⟩

/-- Helper: when the per-post render loop completes without error, every
post in the list got a file written at "public/posts/" + slug +
".html". -/
theorem renderPosts_mem (env : Env) (tpl : PostData → Except String String) :
    ∀ (ps : List PostData) (files : List (String × String)),
      renderPosts env tpl ps = (files, none) →
      ∀ p ∈ ps, ∃ c, ("public/posts/" ++ p.metadata.slug ++ ".html", c) ∈ files
  | [], _, _, p, hp => absurd hp (List.not_mem_nil p)
  | q :: qs, files, h, p, hp => by
    simp only [renderPosts] at h
    cases hce : env.createErr ("public/posts/" ++ q.metadata.slug ++ ".html") with
    | some e =>
      rw [hce] at h
      simp at h
    | none =>
      rw [hce] at h
      cases ht : tpl q with
      | error e =>
        rw [ht] at h
        simp at h
      | ok out =>
        rw [ht] at h
        rcases hrec : renderPosts env tpl qs with ⟨fs2, e2⟩
        rw [hrec] at h
        simp only [Prod.mk.injEq] at h
        obtain ⟨hf, he⟩ := h
        subst hf
        subst he
        rcases List.mem_cons.mp hp with hpq | hpq
        · subst hpq
          exact ⟨out, List.mem_cons_self _ _⟩
        · obtain ⟨c, hc⟩ := renderPosts_mem env tpl qs fs2 hrec p hpq
          exact ⟨c, List.mem_cons_of_mem _ hc⟩

/-- Helper: inversion of a successful run — the copy succeeded, the load
phase produced a post list, the post template parsed, the per-post
render loop completed without error, and its files all appear in the
final state. -/
theorem buildRun_success_inv (sortImpl : List PostData → List PostData)
    (env : Env) (st : BuildState)
    (h : buildRun sortImpl env = (st, .success)) :
    ∃ c posts tpl postFiles,
      env.copyStyle = .ok c ∧ getAllpostData env = .ok posts ∧
      env.postTpl = .ok tpl ∧
      renderPosts env tpl (sortImpl posts) = (postFiles, none) ∧
      ∀ q ∈ postFiles, q ∈ st.files := by
  cases hrm : env.removeErr with
  | some m => simp [buildRun, hrm] at h
  | none =>
    cases hm1 : env.mkdirPublicErr with
    | some m => simp [buildRun, hrm, hm1] at h
    | none =>
      cases hm2 : env.mkdirPostsErr with
      | some m => simp [buildRun, hrm, hm1, hm2] at h
      | none =>
        cases hcs : env.copyStyle with
        | openErr e3 => simp [buildRun, hrm, hm1, hm2, hcs] at h
        | createErr e3 => simp [buildRun, hrm, hm1, hm2, hcs] at h
        | copyErr pc e3 => simp [buildRun, hrm, hm1, hm2, hcs] at h
        | ok c =>
          cases hga : getAllpostData env with
          | error e2 => simp [buildRun, hrm, hm1, hm2, hcs, hga] at h
          | ok posts =>
            cases hpt : env.postTpl with
            | error e2 =>
              simp [buildRun, hrm, hm1, hm2, hcs, hga, ParsepostsMDToHTML, hpt] at h
            | ok tpl =>
              rcases hrp : renderPosts env tpl (sortImpl posts) with ⟨postFiles, perr⟩
              cases perr with
              | some e2 =>
                simp [buildRun, hrm, hm1, hm2, hcs, hga, ParsepostsMDToHTML, hpt, hrp] at h
              | none =>
                cases hidx : ParseIndexTemplateToHTML env (sortImpl posts) with
                | panicked e2 =>
                  simp [buildRun, hrm, hm1, hm2, hcs, hga, ParsepostsMDToHTML, hpt, hrp,
                    hidx] at h
                | ran idxFiles ierr =>
                  cases ierr with
                  | some e2 =>
                    simp [buildRun, hrm, hm1, hm2, hcs, hga, ParsepostsMDToHTML, hpt, hrp,
                      hidx] at h
                  | none =>
                    cases habt : ParseAboutPage env with
                    | panicked e2 =>
                      simp [buildRun, hrm, hm1, hm2, hcs, hga, ParsepostsMDToHTML, hpt, hrp,
                        hidx, habt] at h
                    | ran aFiles aerr =>
                      cases aerr with
                      | some e2 =>
                        simp [buildRun, hrm, hm1, hm2, hcs, hga, ParsepostsMDToHTML, hpt,
                          hrp, hidx, habt] at h
                      | none =>
                        simp only [buildRun, hrm, hm1, hm2, hcs, hga, ParsepostsMDToHTML,
                          hpt, hrp, hidx, habt, Prod.mk.injEq] at h
                        obtain ⟨hst, -⟩ := h
                        refine ⟨c, posts, tpl, postFiles, rfl, rfl, rfl, hrp, ?_⟩
                        intro q hq
                        rw [← hst]
                        exact List.mem_append_left _ (List.mem_append_left _
                          (List.mem_append_right _ hq))

/-- C2: on any successful build run (with a sort implementation that
permutes its input, as the library sort does), every discovered post
source file f has its post page written at exactly
"public/posts/" ++ slugOf f ++ ".html", where slugOf strips the
"posts/" directory prefix and the ".md" extension from the filename. -/
theorem C2_post_page_paths (sortImpl : List PostData → List PostData)
    (env : Env) (st : BuildState)
    (hperm : ∀ l, (sortImpl l).Perm l)
    (h : buildRun sortImpl env = (st, .success)) :
    ∀ f ∈ env.globFiles, ∃ c, ("public/posts/" ++ slugOf f ++ ".html", c) ∈ st.files := by
  obtain ⟨c, posts, tpl, postFiles, hcs, hga, hpt, hrp, hsub⟩ :=
    buildRun_success_inv sortImpl env st h
  intro f hf
  have hslugs := loadPosts_slugs env env.globFiles posts hga
  have hmm : slugOf f ∈ posts.map (fun p => p.metadata.slug) := by
    rw [hslugs]
    exact List.mem_map_of_mem slugOf hf
  obtain ⟨p, hp, hps⟩ := List.mem_map.mp hmm
  have hpsorted : p ∈ sortImpl posts := ((hperm posts).mem_iff).mpr hp
  obtain ⟨cc, hcc⟩ := renderPosts_mem env tpl (sortImpl posts) postFiles hrp p hpsorted
  rw [hps] at hcc
  exact ⟨cc, hsub _ hcc⟩

/-- Witness for C2: the concrete successful run writes the page of
posts/hello.md at public/posts/hello.html. -/
theorem C2_post_page_paths_witness :
    slugOf "posts/hello.md" = "hello" ∧
    buildRun wSort wEnv =
      (⟨["public", "public/posts"],
        [("public/style.css", "css-bytes"),
         ("public/posts/hello.html", "post:hello:<h1># Hi</h1>"),
         ("public/index.html", "index:Hello"),
         ("public/about.html", "about:about:About me")]⟩, .success) ∧
    ∃ c, ("public/posts/" ++ slugOf "posts/hello.md" ++ ".html", c) ∈
      (⟨["public", "public/posts"],
        [("public/style.css", "css-bytes"),
         ("public/posts/hello.html", "post:hello:<h1># Hi</h1>"),
         ("public/index.html", "index:Hello"),
         ("public/about.html", "about:about:About me")]⟩ : BuildState).files := by
  refine ⟨rfl, rfl, ?_⟩
  refine C2_post_page_paths wSort wEnv _ (fun l => List.perm_insertionSort _ l) rfl
    "posts/hello.md" ?_
  show "posts/hello.md" ∈ ["posts/hello.md"]
  simp
